import Mathlib

/-!
Verification development for the xenlight Go type generator
(tools/golang/xenlight/gengotypes.py).

The generator walks a graph of IDL type descriptors and emits two Go
artifacts: type declarations and C<->Go marshaling helpers.  Below, the
descriptor model and every emitter the claims touch are translated into
Lean functions over `String`.  Python exceptions are modelled with
`Except String`; the per-run accumulator lists (`type_extras`,
`helper_extras`) are modelled as explicitly returned lists, in the order
the Python code appends to them.

Notes on modelling choices:
* The table of builtin native names (gengotypes.py lines 11-19) is keyed
  by `idl.<builtin>.typename`, read from the external `idl` module which
  is not among the sources; the keys used here follow the spec's
  description of the configured builtins.  None of the claims depends on
  the particular key strings, only on membership/non-membership.
* Python's `str(None)` interpolation (`'{}'.format(None)`) yields the
  string "None"; `pyStr` reproduces this for optional native names.
* Places where the Python code would raise `AttributeError` on malformed
  descriptors (e.g. `define_struct` applied to a non-struct) are modelled
  as `Except.error "attribute error"`.  The message text of
  `raise Exception('type {} not supported')` is modelled as
  "type not supported" (the interpolated repr is not needed by any claim).
* `go_fmt` (an external process invocation) and the cgo preamble
  accumulator are outside every claim and are not modelled.
-/

-- ## Python string primitives used by the generator

-- Python `str(x)` for an optional native name: `None` prints as "None".
def pyStr (o : Option String) : String := o.getD "None"

-- Python `name.split('_')`: splits on every underscore, keeping empty words.
def splitU : List Char → List (List Char)
  | [] => [[]]
  | c :: cs =>
    if c = '_' then [] :: splitU cs
    else
      match splitU cs with
      | [] => [[c]]
      | w :: ws => (c :: w) :: ws

-- Python `str.lower()` (ASCII, the generator's input domain).
def lowerL (cs : List Char) : List Char := cs.map Char.toLower

-- Python `str.title()` on ASCII text: a letter that starts a letter-run is
-- upper-cased, a letter preceded by another letter is lower-cased, and
-- non-letters are unchanged.  The flag records whether the previous
-- character was a letter.
def titleAux : Bool → List Char → List Char
  | _, [] => []
  | prevAlpha, c :: cs =>
    (if c.isAlpha then (if prevAlpha then c.toLower else c.toUpper) else c)
      :: titleAux c.isAlpha cs

def titlePy (cs : List Char) : List Char := titleAux false cs

-- ## Configured tables (gengotypes.py lines 11-25)

-- Go versions of the builtin types, keyed by the IDL builtin's native name.
def builtin_type_names : List (String × String) :=
  [("bool", "bool"), ("string", "string"), ("integer", "int"),
   ("uint8", "byte"), ("uint16", "uint16"), ("uint32", "uint32"),
   ("uint64", "uint64")]

-- Go keywords that collide with libxl field names.
def go_keywords : List String := ["type", "func"]

def go_builtin_types : List String :=
  ["bool", "string", "int", "byte", "uint16", "uint32", "uint64"]

-- ## Name resolver (xenlight_golang_fmt_name, lines 613-631)

-- Faithful translation, including the corner where Python raises an
-- IndexError: an unexported, non-builtin name whose word list becomes
-- empty after the `libxl` prefix is dropped makes `words[0]` fail; that
-- case is `none` here.
def xenlight_golang_fmt_name_opt (name : String) (exported : Bool) : Option String :=
  match builtin_type_names.lookup name with
  | some v => some v
  | none =>
    let ws := splitU name.data
    let ws' := match ws with
               | w :: rest => if lowerL w = "libxl".data then rest else w :: rest
               | [] => []
    if exported then some (String.mk (List.flatten (ws'.map titlePy)))
    else
      match ws' with
      | [] => none
      | w :: rest => some (String.mk (w ++ List.flatten (rest.map titlePy)))

-- Total wrapper used by the emitters (every emitter call site in the
-- source stays inside the total domain of the Python function).
def xenlight_golang_fmt_name (name : String) (exported : Bool) : String :=
  (xenlight_golang_fmt_name_opt name exported).getD ""

-- ## The descriptor model (the slice of the idl type graph the generator reads)

-- Each constructor carries exactly the attributes gengotypes.py reads:
-- `typename` (possibly absent), the `json_parse_type` classification
-- string, enum values, struct fields with `init_fn`/`dispose_fn`, the
-- array element type and length-variable name, and a keyed union's
-- discriminant name/type plus variants (a variant's payload is `none`
-- when the IDL gives it no struct).
inductive TypeDesc where
  | builtin (tn : String) (jpt : String)
  | enumeration (tn : Option String) (values : List (String × Int)) (jpt : String)
  | struct (tn : Option String) (fields : List (String × TypeDesc))
      (init_fn : String) (dispose_fn : String) (jpt : String)
  | array (tn : Option String) (elem : TypeDesc) (lenvar : String) (jpt : String)
  | keyedUnion (tn : Option String) (keyname : String) (keytype : String)
      (ufields : List (String × Option TypeDesc)) (jpt : String)

def TypeDesc.typename : TypeDesc → Option String
  | .builtin tn _ => some tn
  | .enumeration tn _ _ => tn
  | .struct tn _ _ _ _ => tn
  | .array tn _ _ _ => tn
  | .keyedUnion tn _ _ _ _ => tn

def TypeDesc.json_parse_type : TypeDesc → String
  | .builtin _ j => j
  | .enumeration _ _ j => j
  | .struct _ _ _ _ j => j
  | .array _ _ _ j => j
  | .keyedUnion _ _ _ _ j => j

def TypeDesc.isEnum : TypeDesc → Bool
  | .enumeration _ _ _ => true
  | _ => false

def TypeDesc.fieldsOf : TypeDesc → List (String × TypeDesc)
  | .struct _ fs _ _ _ => fs
  | _ => []

-- `is_castable` (lines 287-289, 505-507, 407-409, 583-585): integer-like
-- native classification, an enumeration, or a Go-builtin target type.
def is_castable (t : TypeDesc) (gotypename : String) : Bool :=
  t.json_parse_type == "JSON_INTEGER" || t.isEnum
    || go_builtin_types.contains gotypename

-- cgo keyword escaping (lines 272-273, 335-336, 492-493, 550-551): a C
-- name colliding with a Go keyword is accessed as `_name`.  The source
-- applies this only at the sites transcribed below.
def cgoEscape (n : String) : String :=
  if go_keywords.contains n then "_" ++ n else n

-- ## Declaration emitter

-- xenlight_golang_define_enum (lines 76-94).
def xenlight_golang_define_enum (tn : Option String) (values : List (String × Int)) : String :=
  let typename := match tn with
                  | some t => xenlight_golang_fmt_name t true
                  | none => ""
  let head := match tn with
              | some _ => "type " ++ typename ++ " int\n"
              | none => ""
  head ++ "const(\n"
    ++ String.join (values.map (fun v =>
         xenlight_golang_fmt_name v.1 true ++ " " ++ typename ++ " = "
           ++ toString v.2 ++ "\n"))
    ++ ")\n"

mutual

-- xenlight_golang_define_struct (lines 96-139).  Returns the struct text
-- and the `type_extras` fragments appended while emitting it.
def xenlight_golang_define_struct (t : TypeDesc) (typename : Option String)
    (nested : Bool) : Except String (String × List String) :=
  match t with
  | .struct tn fields _ _ _ =>
    let name := xenlight_golang_fmt_name
      (match typename with | some s => s | none => pyStr tn) true
    let head := if nested then name ++ " struct \x7b\n"
                else "type " ++ name ++ " struct \x7b\n"
    match defineStructFields (pyStr tn) fields with
    | .error e => .error e
    | .ok (body, ex) => .ok (head ++ body ++ "\x7d\n", ex)
  | _ => .error "attribute error"

-- The field loop of define_struct (lines 112-134).
def defineStructFields (sn : String) :
    List (String × TypeDesc) → Except String (String × List String)
  | [] => .ok ("", [])
  | (fn, ft) :: rest =>
    let piece : Except String (String × List String) :=
      match ft.typename with
      | some _ =>
        match ft with
        | .array _ elem _ _ =>
          .ok (xenlight_golang_fmt_name fn true ++ " []"
                ++ xenlight_golang_fmt_name (pyStr elem.typename) true ++ "\n", [])
        | _ =>
          .ok (xenlight_golang_fmt_name fn true ++ " "
                ++ xenlight_golang_fmt_name (pyStr ft.typename) true ++ "\n", [])
      | none =>
        match ft with
        | .struct _ _ _ _ _ => xenlight_golang_define_struct ft (some fn) true
        | .keyedUnion _ _ _ _ _ => xenlight_golang_define_union ft sn
        | _ => .error "type not supported"
    match piece with
    | .error e => .error e
    | .ok (s1, ex1) =>
      match defineStructFields sn rest with
      | .error e => .error e
      | .ok (s2, ex2) => .ok (s1 ++ s2, ex1 ++ ex2)

-- xenlight_golang_define_union (lines 141-185).  Returns the two-member
-- field fragment and the `type_extras` appended (interface, variant
-- structs, marker methods), in append order.
def xenlight_golang_define_union (t : TypeDesc) (structname : String) :
    Except String (String × List String) :=
  match t with
  | .keyedUnion _ keyname keytype ufields _ =>
    let interface_name :=
      xenlight_golang_fmt_name (structname ++ "_" ++ keyname ++ "_union") false
    let iface := "type " ++ interface_name ++ " interface \x7b\n"
      ++ "is" ++ interface_name ++ "()\n" ++ "\x7d\n"
    match defineUnionVariants structname keyname interface_name ufields with
    | .error e => .error e
    | .ok ex =>
      .ok (xenlight_golang_fmt_name keyname true ++ " "
             ++ xenlight_golang_fmt_name keytype true ++ "\n"
             ++ xenlight_golang_fmt_name (keyname ++ "_union") true ++ " "
             ++ interface_name ++ "\n",
           iface :: ex)
  | _ => .error "attribute error"

-- The variant loop of define_union (lines 161-175): a variant without a
-- payload is skipped; a payload variant contributes its struct definition
-- (with any extras that recursion appended first) and a marker method.
def defineUnionVariants (sn kn iname : String) :
    List (String × Option TypeDesc) → Except String (List String)
  | [] => .ok []
  | (_, none) :: rest => defineUnionVariants sn kn iname rest
  | (fn, some p) :: rest =>
    let name := sn ++ "_" ++ kn ++ "_union_" ++ fn
    match xenlight_golang_define_struct p (some name) false with
    | .error e => .error e
    | .ok (s, innerEx) =>
      let marker := "func (x " ++ xenlight_golang_fmt_name name true
        ++ ") is" ++ iname ++ "()\x7b\x7d\n"
      match defineUnionVariants sn kn iname rest with
      | .error e => .error e
      | .ok rex => .ok (innerEx ++ s :: marker :: rex)

end

-- Extract the payloads of a union's variants when all are present (used
-- only to model the `isinstance(ty, idl.Aggregate)` routing below).
def liftPayloads : List (String × Option TypeDesc) → Option (List (String × TypeDesc))
  | [] => some []
  | (_, none) :: _ => none
  | (fn, some p) :: rest =>
    match liftPayloads rest with
    | none => none
    | some fs => some ((fn, p) :: fs)

-- xenlight_golang_type_define (lines 65-74): enumerations and aggregates
-- are rendered, anything else contributes an empty string.  A top-level
-- KeyedUnion is an `idl.Aggregate` in Python and is routed through
-- define_struct over its variant fields (crashing on a payload-less
-- variant, modelled as an error).
def xenlight_golang_type_define (t : TypeDesc) : Except String (String × List String) :=
  match t with
  | .enumeration tn vs _ => .ok (xenlight_golang_define_enum tn vs, [])
  | .struct _ _ _ _ _ => xenlight_golang_define_struct t none false
  | .keyedUnion tn _ _ ufields jpt =>
    match liftPayloads ufields with
    | some fs => xenlight_golang_define_struct (.struct tn fs "None" "None" jpt) none false
    | none => .error "attribute error"
  | _ => .ok ("", [])

-- ## Output assembly for the declarations artifact

-- Interleave each `type_extras` entry with the newline written after it
-- (lines 57-59).
def extraChunks (ex : List String) : List String :=
  ex.foldr (fun x r => x :: "\n" :: r) []

-- The writer loop of xenlight_golang_generate_types (lines 52-61).  The
-- first component is the list of chunks written to the open file so far;
-- the second is `some msg` when a raise aborted the loop (the partially
-- written chunks persist, as the Python file is already open for writing).
def generateTypesGo : List TypeDesc → List String → List String × Option String
  | [], acc => (acc, none)
  | t :: ts, acc =>
    match xenlight_golang_type_define t with
    | .error e => (acc, some e)
    | .ok (s, ex) => generateTypesGo ts (acc ++ s :: "\n" :: extraChunks ex)

-- xenlight_golang_generate_types (lines 39-63): the comment (when given)
-- and the package line are written before any type.
def xenlight_golang_generate_types (comment : Option String) (types : List TypeDesc) :
    List String × Option String :=
  generateTypesGo types
    ((match comment with | some c => [c] | none => []) ++ ["package xenlight\n"])

-- ## Decode emitter (native to managed)

-- xenlight_golang_array_from_C (lines 426-461), applied to one Array
-- field (the Python argument is the field object; here its name and its
-- descriptor are passed separately).
def xenlight_golang_array_from_C (fname : String) (ftype : TypeDesc) : String :=
  match ftype with
  | .array _ elem lenvar _ =>
    let gotypename := xenlight_golang_fmt_name (pyStr elem.typename) true
    let goname := xenlight_golang_fmt_name fname true
    let ctypename := pyStr elem.typename
    let cname := fname
    let cslice := "c" ++ goname
    let clenvar := lenvar
    let golenvar := xenlight_golang_fmt_name clenvar false
    golenvar ++ " := int(xc." ++ clenvar ++ ")\n"
      ++ cslice ++ " := "
      ++ "(*[1<<28]C." ++ ctypename ++ ")(unsafe.Pointer(xc." ++ cname
      ++ "))[:" ++ golenvar ++ ":" ++ golenvar ++ "]\n"
      ++ "x." ++ goname ++ " = make([]" ++ gotypename ++ ", " ++ golenvar ++ ")\n"
      ++ "for i, v := range " ++ cslice ++ " \x7b\n"
      ++ (if go_builtin_types.contains gotypename || elem.isEnum then
            "x." ++ goname ++ "[i] = " ++ gotypename ++ "(v)\n"
          else
            "var e " ++ gotypename ++ "\n"
            ++ "if err := e.fromC(&v); err != nil \x7b\n"
            ++ "return err \x7d\n"
            ++ "x." ++ goname ++ "[i] = e\n")
      ++ "\x7d\n"
  | _ => "None"

-- xenlight_golang_union_fields_from_C (lines 398-424): the body of a
-- per-variant fromC helper, reading the reinterpreted staging value
-- `tmp`.  Note the native field name `cfname` is used verbatim, with no
-- Go-keyword escaping.
def xenlight_golang_union_fields_from_C : List (String × TypeDesc) → String
  | [] => ""
  | (fn, ft) :: rest =>
    let gotypename := xenlight_golang_fmt_name (pyStr ft.typename) true
    let gofname := xenlight_golang_fmt_name fn true
    let cfname := fn
    (if !(is_castable ft gotypename) then
       "if err := x." ++ gofname ++ ".fromC(&tmp." ++ cfname
         ++ ");err != nil \x7b\n return err \n\x7d\n"
     else if gotypename == "string" then
       "x." ++ gofname ++ " = C.GoString(tmp." ++ cfname ++ ")\n"
     else
       "x." ++ gofname ++ " = " ++ gotypename ++ "(tmp." ++ cfname ++ ")\n")
      ++ xenlight_golang_union_fields_from_C rest

-- One per-variant fromC helper function (lines 351-368): guard on the
-- discriminant first, then reinterpret the raw union bytes and read the
-- variant's fields.
def unionFromCHelper (gokeytype cgo_keyname struct_name union_name keytype keyname : String)
    (fn : String) (p : TypeDesc) : String :=
  let val := xenlight_golang_fmt_name (keytype ++ "_" ++ fn) true
  let typename := struct_name ++ "_" ++ keyname ++ "_union_" ++ fn
  let gotypename := xenlight_golang_fmt_name typename true
  "func (x *" ++ gotypename ++ ") fromC(xc *C." ++ struct_name ++ ") error \x7b\n"
    ++ "if " ++ gokeytype ++ "(xc." ++ cgo_keyname ++ ") != " ++ val ++ " \x7b\n"
    ++ "return errors.New(\"expected union key " ++ val ++ "\")\n"
    ++ "\x7d\n\n"
    ++ "tmp := (*C." ++ typename ++ ")(unsafe.Pointer(&xc." ++ union_name ++ "[0]))\n"
    ++ xenlight_golang_union_fields_from_C p.fieldsOf
    ++ "return nil\n\x7d\n"

-- The helper-collecting loop (lines 340-368): variants without a payload
-- are skipped before anything is recorded for them.
def unionFromCHelpers (gokeytype cgo_keyname struct_name union_name keytype keyname : String) :
    List (String × Option TypeDesc) → List String
  | [] => []
  | (_, none) :: rest =>
    unionFromCHelpers gokeytype cgo_keyname struct_name union_name keytype keyname rest
  | (fn, some p) :: rest =>
    unionFromCHelper gokeytype cgo_keyname struct_name union_name keytype keyname fn p
      :: unionFromCHelpers gokeytype cgo_keyname struct_name union_name keytype keyname rest

-- One dispatch case of the decode switch (lines 375-388).
def unionFromCCase (struct_name keyname keytype fn : String) : String :=
  let case_val := xenlight_golang_fmt_name (keytype ++ "_" ++ fn) true
  let gotype :=
    xenlight_golang_fmt_name (struct_name ++ "_" ++ keyname ++ "_union_" ++ fn) true
  let goname := xenlight_golang_fmt_name (keyname ++ "_" ++ fn) false
  let field_name := xenlight_golang_fmt_name (keyname ++ "_union") true
  "case " ++ case_val ++ ":\n"
    ++ "var " ++ goname ++ " " ++ gotype ++ "\n"
    ++ "if err := " ++ goname ++ ".fromC(xc);err != nil \x7b\n return err \n\x7d\n"
    ++ "x." ++ field_name ++ " = " ++ goname ++ "\n"

-- The decode switch only has cases for the variants recorded in `cases`,
-- i.e. the payload-carrying ones (lines 340-349, 375-388).
def unionFromCCases (struct_name keyname keytype : String) :
    List (String × Option TypeDesc) → String
  | [] => ""
  | (_, none) :: rest => unionFromCCases struct_name keyname keytype rest
  | (fn, some _) :: rest =>
    unionFromCCase struct_name keyname keytype fn
      ++ unionFromCCases struct_name keyname keytype rest

-- xenlight_golang_union_from_C (lines 325-396).  Returns the switch text
-- inlined into the owner's fromC and the `helper_extras` appended (the
-- per-variant fromC functions), in order.
def xenlight_golang_union_from_C (t : TypeDesc) (union_name struct_name : String) :
    String × List String :=
  match t with
  | .keyedUnion _ keyname keytype ufields _ =>
    let gokeyname := xenlight_golang_fmt_name keyname true
    let gokeytype := xenlight_golang_fmt_name keytype true
    let cgo_keyname := cgoEscape keyname
    let helpers :=
      unionFromCHelpers gokeytype cgo_keyname struct_name union_name keytype keyname ufields
    let s := "x." ++ gokeyname ++ " = " ++ gokeytype ++ "(xc." ++ cgo_keyname ++ ")\n"
      ++ "switch x." ++ gokeyname ++ "\x7b\n"
      ++ unionFromCCases struct_name keyname keytype ufields
      ++ "default:\n"
      ++ "return fmt.Errorf(\"invalid union key \x27%v\x27\", x." ++ gokeyname ++ ")"
      ++ "\x7d\n"
    (s, helpers)
  | _ => ("None", [])

mutual

-- xenlight_golang_define_from_C (lines 245-323).  Returns the function
-- text and the `helper_extras` appended while emitting it.
def xenlight_golang_define_from_C (t : TypeDesc) (typename : Option String)
    (nested : Bool) : Except String (String × List String) :=
  match t with
  | .struct tn fields _ _ _ =>
    let gotypename := xenlight_golang_fmt_name
      (match typename with | some s => s | none => pyStr tn) true
    let ctypename := match typename with | some s => s | none => pyStr tn
    let head := if nested then ""
      else "func (x *" ++ gotypename ++ ") fromC(xc *C." ++ ctypename ++ ") error \x7b\n"
    match fromCFields (pyStr tn) typename nested fields with
    | .error e => .error e
    | .ok (body, helpers) =>
      .ok (head ++ body ++ (if nested then "" else "return nil\x7d\n"), helpers)
  | _ => .error "attribute error"

-- The field loop of define_from_C (lines 260-317).
def fromCFields (ownerTn : String) (typename : Option String) (nested : Bool) :
    List (String × TypeDesc) → Except String (String × List String)
  | [] => .ok ("", [])
  | (fn, ft) :: rest =>
    let piece : Except String (String × List String) :=
      match ft.typename with
      | some ttn =>
        match ft with
        | .array _ _ _ _ => .ok (xenlight_golang_array_from_C fn ft, [])
        | _ =>
          let gotypename := xenlight_golang_fmt_name ttn true
          let gofname := xenlight_golang_fmt_name fn true
          let cfname := cgoEscape fn
          let goname := match nested, typename with
                        | true, some tnm =>
                          xenlight_golang_fmt_name tnm true ++ "." ++ gofname
                        | _, _ => gofname
          let cname := match nested, typename with
                       | true, some tnm => tnm ++ "." ++ cfname
                       | _, _ => cfname
          if is_castable ft gotypename then
            if gotypename == "string" then
              .ok ("x." ++ goname ++ " = C.GoString(xc." ++ cname ++ ")\n", [])
            else
              .ok ("x." ++ goname ++ " = " ++ gotypename ++ "(xc." ++ cname ++ ")\n", [])
          else
            let varname := xenlight_golang_fmt_name (ttn ++ "_" ++ fn) false
            .ok ("var " ++ varname ++ " " ++ gotypename ++ "\n"
                  ++ "if err := " ++ varname ++ ".fromC(&xc." ++ cname
                  ++ ");err != nil \x7b\n return err\n\x7d\n"
                  ++ "x." ++ goname ++ " = " ++ varname ++ "\n", [])
      | none =>
        match ft with
        | .struct _ _ _ _ _ => xenlight_golang_define_from_C ft (some fn) true
        | .keyedUnion _ _ _ _ _ =>
          .ok (xenlight_golang_union_from_C ft fn ownerTn)
        | _ => .error "type not supported"
    match piece with
    | .error e => .error e
    | .ok (s1, h1) =>
      match fromCFields ownerTn typename nested rest with
      | .error e => .error e
      | .ok (s2, h2) => .ok (s1 ++ s2, h1 ++ h2)

end

-- ## Encode emitter (managed to native)

-- The variant-field loop of union_to_C (lines 578-597): each field of the
-- variant is written into the staging value named after the variant.  The
-- native field name `ufn` is used verbatim (no Go-keyword escaping), and
-- a nested encode failure disposes via the `dispose_fn` passed in.
def unionToCFieldLines (varname dispose_fn : String) : List (String × TypeDesc) → String
  | [] => ""
  | (ufn, uft) :: rest =>
    let gotypename := xenlight_golang_fmt_name (pyStr uft.typename) true
    let ctypename := pyStr uft.typename
    let gofname := xenlight_golang_fmt_name ufn true
    (if !(is_castable uft gotypename) then
       varname ++ "." ++ ufn ++ ", err = tmp." ++ gofname ++ ".toC()\n"
         ++ "if err != nil \x7b\n"
         ++ "C." ++ dispose_fn ++ "(&xc)\n"
         ++ "return xc,err \n\x7d\n"
     else if gotypename == "string" then
       varname ++ "." ++ ufn ++ " = C.CString(tmp." ++ gofname ++ ")\n"
     else
       varname ++ "." ++ ufn ++ " = C." ++ ctypename ++ "(tmp." ++ gofname ++ ")\n")
      ++ unionToCFieldLines varname dispose_fn rest

-- One dispatch case of the encode switch (lines 564-603): type-assert the
-- polymorphic member, disposing and failing on mismatch, then fill the
-- staging value and copy its raw bytes into the shared union storage.
def unionToCCase (keyname keytype struct_name union_name dispose_fn fn : String)
    (p : TypeDesc) : String :=
  let key_val := xenlight_golang_fmt_name (keytype ++ "_" ++ fn) true
  let cgotype := struct_name ++ "_" ++ keyname ++ "_union_" ++ fn
  let gotype := xenlight_golang_fmt_name cgotype true
  let field_name := xenlight_golang_fmt_name (keyname ++ "_union") true
  "case " ++ key_val ++ ":\n"
    ++ "tmp, ok := x." ++ field_name ++ ".(" ++ gotype ++ ")\n"
    ++ "if !ok \x7b\n"
    ++ "C." ++ dispose_fn ++ "(&xc)\n"
    ++ "return xc,errors.New(\"wrong type for union key " ++ keyname ++ "\")\n"
    ++ "\x7d\n"
    ++ "var " ++ fn ++ " C." ++ cgotype ++ "\n"
    ++ unionToCFieldLines fn dispose_fn p.fieldsOf
    ++ fn ++ "Bytes := C.GoBytes(unsafe.Pointer(&" ++ fn ++ "),C.sizeof_"
    ++ cgotype ++ ")\n"
    ++ "copy(xc." ++ union_name ++ "[:]," ++ fn ++ "Bytes)\n"

-- The encode switch likewise skips payload-less variants (lines 558-562).
def unionToCCases (keyname keytype struct_name union_name dispose_fn : String) :
    List (String × Option TypeDesc) → String
  | [] => ""
  | (_, none) :: rest =>
    unionToCCases keyname keytype struct_name union_name dispose_fn rest
  | (fn, some p) :: rest =>
    unionToCCase keyname keytype struct_name union_name dispose_fn fn p
      ++ unionToCCases keyname keytype struct_name union_name dispose_fn rest

-- xenlight_golang_union_to_C (lines 539-611).
def xenlight_golang_union_to_C (t : TypeDesc) (union_name struct_name dispose_fn : String) :
    String :=
  match t with
  | .keyedUnion _ keyname keytype ufields _ =>
    let gokeyname := xenlight_golang_fmt_name keyname true
    let cgo_keyname := cgoEscape keyname
    "xc." ++ cgo_keyname ++ " = C." ++ keytype ++ "(x." ++ gokeyname ++ ")\n"
      ++ "switch x." ++ gokeyname ++ "\x7b\n"
      ++ unionToCCases keyname keytype struct_name union_name dispose_fn ufields
      ++ "default:\n"
      ++ "return xc, fmt.Errorf(\"invalid union key \x27%v\x27\", x." ++ gokeyname ++ ")"
      ++ "\x7d\n"
  | _ => "None"

mutual

-- xenlight_golang_define_to_C (lines 463-537).
def xenlight_golang_define_to_C (t : TypeDesc) (typename : Option String)
    (nested : Bool) : Except String String :=
  match t with
  | .struct tn fields init_fn dispose_fn _ =>
    let gotypename := xenlight_golang_fmt_name
      (match typename with | some s => s | none => pyStr tn) true
    let ctypename := match typename with | some s => s | none => pyStr tn
    let head := if nested then ""
      else "func (x *" ++ gotypename ++ ") toC() (xc C." ++ ctypename
            ++ ",err error) \x7b\n"
            ++ "C." ++ init_fn ++ "(&xc)\n"
    match toCFields (pyStr tn) dispose_fn typename nested fields with
    | .error e => .error e
    | .ok body => .ok (head ++ body ++ (if nested then "" else "return xc, nil\x7d\n"))
  | _ => .error "attribute error"

-- The field loop of define_to_C (lines 479-531).  Note which dispose
-- routine the failure paths name: a direct non-castable field and a union
-- case use the dispose_fn of the struct whose loop this is (`ty` in the
-- Python code), which for a nested anonymous struct is the nested
-- descriptor's own attribute, not the outer type's.  An Array field emits
-- nothing (lines 481-483, a `# TODO` continue).
def toCFields (ownerTn dispose_fn : String) (typename : Option String) (nested : Bool) :
    List (String × TypeDesc) → Except String String
  | [] => .ok ""
  | (fn, ft) :: rest =>
    let piece : Except String String :=
      match ft.typename with
      | some ttn =>
        match ft with
        | .array _ _ _ _ => .ok ""
        | _ =>
          let gotypename := xenlight_golang_fmt_name ttn true
          let gofname := xenlight_golang_fmt_name fn true
          let cfname := cgoEscape fn
          let goname := match nested, typename with
                        | true, some tnm =>
                          xenlight_golang_fmt_name tnm true ++ "." ++ gofname
                        | _, _ => gofname
          let cname := match nested, typename with
                       | true, some tnm => tnm ++ "." ++ cfname
                       | _, _ => cfname
          if is_castable ft gotypename then
            if gotypename == "string" then
              .ok ("xc." ++ cname ++ " = C.CString(x." ++ goname ++ ")\n")
            else
              .ok ("xc." ++ cname ++ " = C." ++ ttn ++ "(x." ++ goname ++ ")\n")
          else
            .ok ("xc." ++ cname ++ ", err = x." ++ goname ++ ".toC()\n"
                  ++ "if err != nil \x7b\n"
                  ++ "C." ++ dispose_fn ++ "(&xc)\n"
                  ++ "return xc, err\n"
                  ++ "\x7d\n")
      | none =>
        match ft with
        | .struct _ _ _ _ _ => xenlight_golang_define_to_C ft (some fn) true
        | .keyedUnion _ _ _ _ _ =>
          .ok (xenlight_golang_union_to_C ft fn ownerTn dispose_fn)
        | _ => .error "type not supported"
    match piece with
    | .error e => .error e
    | .ok s1 =>
      match toCFields ownerTn dispose_fn typename nested rest with
      | .error e => .error e
      | .ok s2 => .ok (s1 ++ s2)

end

-- ## Substring machinery for statements about emitted text

def startsWithL : List Char → List Char → Bool
  | [], _ => true
  | _ :: _, [] => false
  | c :: cs, d :: ds => c == d && startsWithL cs ds

def containsSeg (small : List Char) : List Char → Bool
  | [] => startsWithL small []
  | b :: bs => startsWithL small (b :: bs) || containsSeg small bs

-- Decidable check that `small` occurs contiguously inside `big`.
def strContainsB (big small : String) : Bool := containsSeg small.data big.data

-- Propositional form: `small` occurs contiguously inside `big`.
def StrContains (big small : String) : Prop :=
  ∃ x y : List Char, big.data = x ++ small.data ++ y

-- ## Spec-side definitions (formalizations of claim texts, for comparison
-- ## against the source-derived functions above)

-- Upper-case the first letter of a word, leaving the rest unchanged.
def upFirst : List Char → List Char
  | [] => []
  | c :: cs => c.toUpper :: cs

-- The name resolver exactly as claim C7 describes it: builtin lookup,
-- split on underscore, drop a first word equal to the reserved prefix,
-- then for exported names upper-case the first letter of every word and
-- concatenate, and for unexported names lower-case the first word
-- entirely and upper-case the first letter of the rest; total, with no
-- error conditions.
def resolve_claim (name : String) (exported : Bool) : String :=
  match builtin_type_names.lookup name with
  | some v => v
  | none =>
    let ws := splitU name.data
    let ws' := match ws with
               | w :: rest => if w = "libxl".data then rest else w :: rest
               | [] => []
    if exported then String.mk (List.flatten (ws'.map upFirst))
    else
      match ws' with
      | [] => ""
      | w :: rest => String.mk (lowerL w ++ List.flatten (rest.map upFirst))

-- Python-style title casing described word-by-character: a letter whose
-- predecessor is not a letter is upper-cased, a letter whose predecessor
-- is a letter is lower-cased, other characters pass through.  (Stated via
-- each character paired with its predecessor, unlike `titleAux`'s
-- flag-threading recursion.)
def title_amended (cs : List Char) : List Char :=
  (cs.zip (none :: cs.map some)).map (fun p =>
    if p.1.isAlpha then
      (if (p.2.map Char.isAlpha).getD false then p.1.toLower else p.1.toUpper)
    else p.1)

-- The name resolver as amended: builtin lookup; split on underscore; drop
-- a first word that case-insensitively equals the reserved prefix; for
-- exported names title-case every word and concatenate; for unexported
-- names keep the first word unchanged and title-case the rest; undefined
-- (an exception) only for an unexported non-builtin name whose word list
-- is empty after the prefix drop.
def amended_resolve (name : String) (exported : Bool) : Option String :=
  match builtin_type_names.lookup name with
  | some v => some v
  | none =>
    let ws := splitU name.data
    let ws' := match ws with
               | w :: rest => if lowerL w = "libxl".data then rest else w :: rest
               | [] => []
    if exported then some (String.mk (List.flatten (ws'.map title_amended)))
    else
      match ws' with
      | [] => none
      | w :: rest => some (String.mk (w ++ List.flatten (rest.map title_amended)))

-- The array decode body as claim C2 describes it: read the sibling
-- length variable's runtime value, build a bounded view over exactly that
-- many native elements, allocate the managed sequence with exactly that
-- length, then per element either cast directly (builtin/enum element) or
-- decode recursively into a fresh element.
def spec_array_decode (fname : String) (elem : TypeDesc) (lenvar : String) : String :=
  let count := xenlight_golang_fmt_name lenvar false
  let elemGo := xenlight_golang_fmt_name (pyStr elem.typename) true
  let member := xenlight_golang_fmt_name fname true
  let view := "c" ++ member
  let readLength := count ++ " := int(xc." ++ lenvar ++ ")\n"
  let boundedView := view ++ " := " ++ "(*[1<<28]C." ++ pyStr elem.typename
    ++ ")(unsafe.Pointer(xc." ++ fname ++ "))[:" ++ count ++ ":" ++ count ++ "]\n"
  let exactAlloc := "x." ++ member ++ " = make([]" ++ elemGo ++ ", " ++ count ++ ")\n"
  let directCast := "x." ++ member ++ "[i] = " ++ elemGo ++ "(v)\n"
  let recursiveDecode := "var e " ++ elemGo ++ "\n"
    ++ "if err := e.fromC(&v); err != nil \x7b\n"
    ++ "return err \x7d\n"
    ++ "x." ++ member ++ "[i] = e\n"
  readLength ++ boundedView ++ exactAlloc
    ++ "for i, v := range " ++ view ++ " \x7b\n"
    ++ (if go_builtin_types.contains elemGo || elem.isEnum then directCast
        else recursiveDecode)
    ++ "\x7d\n"

-- The encode-side union type check as claim C1 describes it: the case arm
-- for a recognized discriminant value type-asserts that the polymorphic
-- member holds the variant's concrete type and, on mismatch, disposes the
-- in-progress native value and returns the "wrong type for union key"
-- error instead of encoding.
def c1_typecheck_snippet (keyname keytype struct_name dispose_fn fn : String) : String :=
  let variantType :=
    xenlight_golang_fmt_name (struct_name ++ "_" ++ keyname ++ "_union_" ++ fn) true
  let member := xenlight_golang_fmt_name (keyname ++ "_union") true
  "case " ++ xenlight_golang_fmt_name (keytype ++ "_" ++ fn) true ++ ":\n"
    ++ "tmp, ok := x." ++ member ++ ".(" ++ variantType ++ ")\n"
    ++ "if !ok \x7b\n"
    ++ "C." ++ dispose_fn ++ "(&xc)\n"
    ++ "return xc,errors.New(\"wrong type for union key " ++ keyname ++ "\")\n"
    ++ "\x7d\n"

-- The discriminant guard of a per-variant decode helper as claim C10
-- describes it: before any field is read, the native discriminant is
-- compared against the variant's key value, and a mismatch returns the
-- "expected union key <value>" error, so no managed field is assigned.
def c10_discriminant_guard (gokeytype cgo_keyname val : String) : String :=
  "if " ++ gokeytype ++ "(xc." ++ cgo_keyname ++ ") != " ++ val ++ " \x7b\n"
    ++ "return errors.New(\"expected union key " ++ val ++ "\")\n"
    ++ "\x7d\n\n"

-- ## Concrete descriptors used by counterexamples and failing inputs

-- C3: an owner struct with its own dispose routine, containing a nested
-- anonymous struct (typename None) whose dispose attribute is absent
-- (Python `None`), with a non-castable member inside the nested struct.
def nestedDisposeInner : TypeDesc :=
  .struct none
    [("val", .struct (some "libxl_bar") [] "libxl_bar_init" "libxl_bar_dispose" "JSON_MAP")]
    "None" "None" "JSON_MAP"

def nestedDisposeOuter : TypeDesc :=
  .struct (some "libxl_outer") [("inner", nestedDisposeInner)]
    "libxl_outer_init" "libxl_outer_dispose" "JSON_MAP"

-- C4: a well-formed enumeration followed by a struct containing a field
-- no emitter handles (an Array descriptor with no typename fails every
-- recognition guard and reaches the raise).
def demoEnum : TypeDesc :=
  .enumeration (some "libxl_e") [("A", 0), ("B", 1)] "JSON_INTEGER"

def badStruct : TypeDesc :=
  .struct (some "libxl_bad")
    [("f", .array none (.builtin "uint8" "JSON_INTEGER") "n" "JSON_ANY")]
    "libxl_bad_init" "libxl_bad_dispose" "JSON_MAP"

-- C6: a keyed union with a payload-less variant ("none") and a payload
-- variant ("disk").
def payloadlessUnion : TypeDesc :=
  .keyedUnion none "kind" "libxl_kind"
    [("none", none),
     ("disk", some (.struct none [("path", .builtin "string" "JSON_STRING")]
        "None" "None" "JSON_MAP"))]
    "JSON_ANY"

-- C8: a keyed union whose payload variant has a field named after the Go
-- keyword `type`.
def keywordFieldUnion : TypeDesc :=
  .keyedUnion none "kind" "libxl_kind"
    [("disk", some (.struct none [("type", .builtin "uint32" "JSON_INTEGER")]
        "None" "None" "JSON_MAP"))]
    "JSON_ANY"

-- C8: a plain struct with a field of the same keyword name, to contrast
-- the escaped direct-field path with the unescaped union path.
def keywordFieldStruct : TypeDesc :=
  .struct (some "libxl_kw") [("type", .builtin "uint32" "JSON_INTEGER")]
    "libxl_kw_init" "libxl_kw_dispose" "JSON_MAP"

-- C3: the full encode function the generator emits for nestedDisposeOuter.
def nestedDisposeOutput : String :=
  "func (x *Outer) toC() (xc C.libxl_outer,err error) \x7b\nC.libxl_outer_init(&xc)\nxc.inner.val, err = x.Inner.Val.toC()\nif err != nil \x7b\nC.None(&xc)\nreturn xc, err\n\x7d\nreturn xc, nil\x7d\n"

-- ## Basic string lemmas

set_option maxRecDepth 40000

theorem string_eq_of_data {a b : String} (h : a.data = b.data) : a = b := by
  cases a; cases b; exact congrArg String.mk h

theorem mk_data_eq (s : String) : String.mk s.data = s := by
  cases s; rfl

theorem str_empty_append (s : String) : "" ++ s = s := by
  apply string_eq_of_data
  rw [String.data_append]
  rfl

theorem strContains_self (s : String) : StrContains s s :=
  ⟨[], [], by simp⟩

theorem strContains_right (a b s : String) (h : StrContains a s) : StrContains (a ++ b) s := by
  obtain ⟨x, y, hh⟩ := h
  exact ⟨x, y ++ b.data, by simp [String.data_append, hh]⟩

theorem strContains_left (a b s : String) (h : StrContains b s) : StrContains (a ++ b) s := by
  obtain ⟨x, y, hh⟩ := h
  exact ⟨a.data ++ x, y, by simp [String.data_append, hh]⟩

-- ## Claim theorems

/-- C2: for every Array field, the decode emitter's generated code reads
the sibling length variable's runtime value, builds a bounded view over
exactly that many native elements, allocates the managed sequence with
exactly that length (independent of any larger backing capacity), casts
each element directly when the element type is a builtin or enum, and
otherwise decodes it recursively into a fresh element — i.e. the emitted
text coincides with the claim's description `spec_array_decode`. -/
theorem C2_array_decode_matches_spec (fname lv jpt : String) (tn : Option String)
    (elem : TypeDesc) :
    xenlight_golang_array_from_C fname (.array tn elem lv jpt)
      = spec_array_decode fname elem lv := by
  apply string_eq_of_data
  simp only [xenlight_golang_array_from_C, spec_array_decode]
  cases h : (go_builtin_types.contains
      (xenlight_golang_fmt_name (pyStr elem.typename) true) || elem.isEnum) <;>
    simp [h, String.data_append, List.append_assoc]

-- The to_C field loop drops an Array field (with a native name) without
-- emitting anything for it.
theorem toCFields_skip_array (ownerTn dispose_fn : String) (typename : Option String)
    (nested : Bool) (fn atn lv ajpt : String) (aelem : TypeDesc)
    (fs₁ fs₂ : List (String × TypeDesc)) :
    toCFields ownerTn dispose_fn typename nested
        (fs₁ ++ (fn, .array (some atn) aelem lv ajpt) :: fs₂)
      = toCFields ownerTn dispose_fn typename nested (fs₁ ++ fs₂) := by
  induction fs₁ with
  | nil =>
    simp only [List.nil_append, toCFields, TypeDesc.typename]
    cases toCFields ownerTn dispose_fn typename nested fs₂ with
    | error e => rfl
    | ok s => simp [str_empty_append]
  | cons hd t ih =>
    obtain ⟨gn, gt⟩ := hd
    simp only [List.cons_append, toCFields, List.append_eq]
    rw [ih]

/-- C5: for every Array field, the encode emitter emits no conversion code
whatsoever — the field is silently skipped — so the generated encode
function is identical to the one generated without the Array field, and
the native array member is left untouched beyond the type's init routine. -/
theorem C5_encode_skips_array_fields (tn : Option String)
    (iS dS jS fn atn lv ajpt : String) (aelem : TypeDesc)
    (fs₁ fs₂ : List (String × TypeDesc)) :
    xenlight_golang_define_to_C
        (.struct tn (fs₁ ++ (fn, .array (some atn) aelem lv ajpt) :: fs₂) iS dS jS)
        none false
      = xenlight_golang_define_to_C (.struct tn (fs₁ ++ fs₂) iS dS jS) none false := by
  simp only [xenlight_golang_define_to_C]
  rw [toCFields_skip_array]

/-- C3: the claim says every encode path disposes the owning type's native
value via the owning type's dispose routine on nested-encode failure.  On
the nested-anonymous-struct path the code instead names the nested
descriptor's own dispose attribute: for `nestedDisposeOuter` (owner
dispose routine `libxl_outer_dispose`, nested anonymous struct with no
dispose routine of its own) the emitted cleanup is `C.None(&xc)`, and the
owner's `C.libxl_outer_dispose(&xc)` appears nowhere in the function. -/
theorem C3_nested_encode_failure_disposes_wrong_routine :
    xenlight_golang_define_to_C nestedDisposeOuter none false = .ok nestedDisposeOutput
      ∧ strContainsB nestedDisposeOutput "C.None(&xc)" = true
      ∧ strContainsB nestedDisposeOutput "C.libxl_outer_dispose(&xc)" = false :=
  ⟨rfl, by decide, by decide⟩

/-- C4 counterexample: the claim says no partial artifact is emitted — the
output is buffered per artifact and only written on full success.  In
fact the writer loop writes each type's text as it goes: on the input
`[demoEnum, badStruct]` the run aborts with the fatal unsupported-kind
error, yet the package line and the full rendering of `demoEnum` have
already been written to the declarations artifact. -/
theorem C4_partial_artifact_written_on_failure :
    xenlight_golang_generate_types none [demoEnum, badStruct]
      = (["package xenlight\n", "type E int\nconst(\nA E = 0\nB E = 1\n)\n", "\n"],
         some "type not supported") := by
  rfl

/-- C6 counterexample: the claim says a payload-less variant still
contributes a dispatch case in the generated union decode and encode
switches.  For `payloadlessUnion` (variants `none` without payload and
`disk` with payload) the emitted decode and encode switches contain a
`case KindDisk:` arm but no `case KindNone:` arm — the `none` key falls
through to the `default` (invalid union key) arm. -/
theorem C6_payloadless_variant_has_no_dispatch_case :
    strContainsB (xenlight_golang_union_from_C payloadlessUnion "u" "libxl_foo").1
        "case KindNone:" = false
      ∧ strContainsB (xenlight_golang_union_from_C payloadlessUnion "u" "libxl_foo").1
        "case KindDisk:" = true
      ∧ strContainsB
          (xenlight_golang_union_to_C payloadlessUnion "u" "libxl_foo" "libxl_foo_dispose")
          "case KindNone:" = false
      ∧ strContainsB
          (xenlight_golang_union_to_C payloadlessUnion "u" "libxl_foo" "libxl_foo_dispose")
          "case KindDisk:" = true
      ∧ strContainsB (xenlight_golang_union_from_C payloadlessUnion "u" "libxl_foo").1
        "default:\nreturn fmt.Errorf(\"invalid union key" = true := by
  refine ⟨by decide, by decide, by decide, by decide, by decide⟩

/-- C7 counterexample: the claim describes the resolver as lower-casing
the first word entirely for unexported identifiers (formalized verbatim as
`resolve_claim`).  The code keeps the first word unchanged: on the input
`"Foo_bar"` (unexported) the code yields `"FooBar"` while the claim's
description yields `"fooBar"`. -/
theorem C7_resolver_differs_from_claim :
    xenlight_golang_fmt_name_opt "Foo_bar" false
      ≠ some (resolve_claim "Foo_bar" false) := by
  decide

/-- C8: the claim says every native-access site, including the
union-variant field paths, escapes a Go-keyword field name with a leading
underscore.  The union-variant paths do not escape: a variant field named
`type` is accessed as `tmp.type` in the decode helper and as `disk.type`
in the encode case, with no `_type` escape, while the same field name in
a plain struct decode is escaped to `xc._type`. -/
theorem C8_union_variant_keyword_field_not_escaped :
    xenlight_golang_union_fields_from_C [("type", .builtin "uint32" "JSON_INTEGER")]
        = "x.Type = uint32(tmp.type)\n"
      ∧ strContainsB
          (xenlight_golang_union_fields_from_C [("type", .builtin "uint32" "JSON_INTEGER")])
          "tmp._type" = false
      ∧ strContainsB (xenlight_golang_union_to_C keywordFieldUnion "u" "libxl_foo" "d")
          "disk.type = C.uint32(tmp.Type)\n" = true
      ∧ xenlight_golang_define_from_C keywordFieldStruct none false
        = .ok ("func (x *Kw) fromC(xc *C.libxl_kw) error \x7b\nx.Type = uint32(xc._type)\nreturn nil\x7d\n", []) :=
  ⟨rfl, by decide, by decide, rfl⟩

/-- C9 counterexample: the claim says the resolver is idempotent.  It is
not: resolving `"a_b"` (exported) yields `"AB"`, and resolving `"AB"`
again yields `"Ab"` (title casing lower-cases the interior capital). -/
theorem C9_resolver_not_idempotent :
    xenlight_golang_fmt_name (xenlight_golang_fmt_name "a_b" true) true
      ≠ xenlight_golang_fmt_name "a_b" true := by
  decide

-- The encode switch over a union's variants splits around any one
-- payload-carrying variant.
theorem unionToCCases_split (kn kt sn un d fn : String) (p : TypeDesc)
    (ufs₁ ufs₂ : List (String × Option TypeDesc)) :
    unionToCCases kn kt sn un d (ufs₁ ++ (fn, some p) :: ufs₂)
      = unionToCCases kn kt sn un d ufs₁
        ++ (unionToCCase kn kt sn un d fn p ++ unionToCCases kn kt sn un d ufs₂) := by
  induction ufs₁ with
  | nil =>
    simp only [List.nil_append, unionToCCases]
    rw [str_empty_append]
  | cons hd t ih =>
    obtain ⟨gn, gopt⟩ := hd
    cases gopt with
    | none =>
      simp only [List.cons_append, unionToCCases, List.append_eq]
      exact ih
    | some q =>
      simp only [List.cons_append, unionToCCases, List.append_eq]
      rw [ih, String.append_assoc]

-- Every emitted encode case opens with the claim's type-check/dispose/
-- error block, followed by the staging-and-copy code.
theorem unionToCCase_starts_with_typecheck (kn kt sn un d fn : String) (p : TypeDesc) :
    ∃ t, unionToCCase kn kt sn un d fn p = c1_typecheck_snippet kn kt sn d fn ++ t := by
  refine ⟨"var " ++ fn ++ " C." ++ (sn ++ "_" ++ kn ++ "_union_" ++ fn) ++ "\n"
      ++ unionToCFieldLines fn d p.fieldsOf
      ++ fn ++ "Bytes := C.GoBytes(unsafe.Pointer(&" ++ fn ++ "),C.sizeof_"
      ++ (sn ++ "_" ++ kn ++ "_union_" ++ fn) ++ ")\n"
      ++ "copy(xc." ++ un ++ "[:]," ++ fn ++ "Bytes)\n", ?_⟩
  apply string_eq_of_data
  simp [unionToCCase, c1_typecheck_snippet, String.data_append, List.append_assoc]

/-- C1: for every KeyedUnion processed by the encode emitter and every
recognized discriminant value (a payload-carrying variant), the generated
encode switch contains, in that variant's case arm, a type check that the
managed polymorphic member holds the variant's concrete type which, on
failure, disposes the in-progress native value via the dispose routine
and returns the descriptive "wrong type for union key" error instead of
encoding (`c1_typecheck_snippet`). -/
theorem C1_encode_union_rejects_wrong_variant_type (tn : Option String)
    (kn kt jpt un sn d fn : String) (p : TypeDesc)
    (ufs₁ ufs₂ : List (String × Option TypeDesc)) :
    StrContains
      (xenlight_golang_union_to_C
        (.keyedUnion tn kn kt (ufs₁ ++ (fn, some p) :: ufs₂) jpt) un sn d)
      (c1_typecheck_snippet kn kt sn d fn) := by
  obtain ⟨t, ht⟩ := unionToCCase_starts_with_typecheck kn kt sn un d fn p
  simp only [xenlight_golang_union_to_C]
  rw [unionToCCases_split, ht]
  apply strContains_right
  apply strContains_right
  apply strContains_right
  apply strContains_right
  apply strContains_right
  apply strContains_left
  apply strContains_left
  apply strContains_right
  apply strContains_right
  exact strContains_self _

-- A payload-carrying variant's decode helper is among the
-- `helper_extras` recorded for the union.
theorem helper_mem_unionFromCHelpers (g c sn un kt kn fn : String) (p : TypeDesc)
    (ufs₁ ufs₂ : List (String × Option TypeDesc)) :
    unionFromCHelper g c sn un kt kn fn p
      ∈ unionFromCHelpers g c sn un kt kn (ufs₁ ++ (fn, some p) :: ufs₂) := by
  induction ufs₁ with
  | nil =>
    simp only [List.nil_append, unionFromCHelpers]
    exact List.mem_cons_self _ _
  | cons hd t ih =>
    obtain ⟨gn, gopt⟩ := hd
    cases gopt with
    | none =>
      simpa only [List.cons_append, unionFromCHelpers] using ih
    | some q =>
      simp only [List.cons_append, unionFromCHelpers]
      exact List.mem_cons_of_mem _ ih

/-- C10: for every payload-carrying variant of a KeyedUnion, the decode
emitter records a dedicated per-variant fromC helper among the union's
emitted helper functions, and that helper consists of its function header
immediately followed by the discriminant guard
(`c10_discriminant_guard`) — which returns the "expected union key
<value>" error — before any code that reads or assigns a field. -/
theorem C10_variant_fromC_guards_discriminant (tn : Option String)
    (kn kt jpt un sn fn : String) (p : TypeDesc)
    (ufs₁ ufs₂ : List (String × Option TypeDesc)) :
    unionFromCHelper (xenlight_golang_fmt_name kt true) (cgoEscape kn) sn un kt kn fn p
        ∈ (xenlight_golang_union_from_C
            (.keyedUnion tn kn kt (ufs₁ ++ (fn, some p) :: ufs₂) jpt) un sn).2
      ∧ ∃ body,
          unionFromCHelper (xenlight_golang_fmt_name kt true) (cgoEscape kn) sn un kt kn fn p
            = "func (x *" ++ xenlight_golang_fmt_name (sn ++ "_" ++ kn ++ "_union_" ++ fn) true
                ++ ") fromC(xc *C." ++ sn ++ ") error \x7b\n"
              ++ c10_discriminant_guard (xenlight_golang_fmt_name kt true) (cgoEscape kn)
                  (xenlight_golang_fmt_name (kt ++ "_" ++ fn) true)
              ++ body := by
  constructor
  · simp only [xenlight_golang_union_from_C]
    exact helper_mem_unionFromCHelpers _ _ _ _ _ _ _ _ _ _
  · refine ⟨"tmp := (*C." ++ (sn ++ "_" ++ kn ++ "_union_" ++ fn)
        ++ ")(unsafe.Pointer(&xc." ++ un ++ "[0]))\n"
        ++ xenlight_golang_union_fields_from_C p.fieldsOf
        ++ "return nil\n\x7d\n", ?_⟩
    apply string_eq_of_data
    simp [unionFromCHelper, c10_discriminant_guard, String.data_append, List.append_assoc]

-- A struct whose first field fails every recognition guard of the
-- declaration emitter makes type_define raise.
theorem typeDefine_unsupported_first_field (tn : Option String)
    (fn lv jA iS dS jS : String) (e : TypeDesc) (more : List (String × TypeDesc)) :
    xenlight_golang_type_define (.struct tn ((fn, .array none e lv jA) :: more) iS dS jS)
      = .error "type not supported" := rfl

-- The writer loop on a list whose prefix renders cleanly and whose next
-- type raises: the chunks written are exactly those of the prefix run,
-- and the raise aborts the loop.
theorem generateTypesGo_prefix (rest : List TypeDesc) (bad : TypeDesc)
    (hbad : xenlight_golang_type_define bad = .error "type not supported") :
    ∀ (pre : List TypeDesc) (acc : List String),
    (∀ t ∈ pre, ∃ r, xenlight_golang_type_define t = .ok r) →
    generateTypesGo (pre ++ bad :: rest) acc
      = ((generateTypesGo pre acc).1, some "type not supported") := by
  intro pre
  induction pre with
  | nil =>
    intro acc _
    simp only [List.nil_append, generateTypesGo, hbad]
  | cons p t ih =>
    intro acc hok
    obtain ⟨⟨s, ex⟩, hr⟩ := hok p (List.mem_cons_self _ _)
    simp only [List.cons_append, generateTypesGo, hr]
    exact ih _ (fun q hq => hok q (List.mem_cons_of_mem _ hq))

/-- C4 amended: when a field with an unrecognized descriptor reaches the
declaration, decode, or encode emitters, the generation run fails fast by
raising a fatal error; but the declarations artifact is written
incrementally, type by type, into the already-open output file, so the
chunks written before the failure are exactly the chunks of a successful
run over the preceding types — a partial artifact remains when a later
type fails. -/
theorem C4_amended_fail_fast_with_incremental_writes (comment : Option String)
    (pre rest : List TypeDesc) (tn : Option String) (fn lv jA iS dS jS : String)
    (e : TypeDesc) (more : List (String × TypeDesc))
    (hok : ∀ t ∈ pre, ∃ r, xenlight_golang_type_define t = .ok r) :
    xenlight_golang_generate_types comment
        (pre ++ (.struct tn ((fn, .array none e lv jA) :: more) iS dS jS) :: rest)
      = ((xenlight_golang_generate_types comment pre).1, some "type not supported")
      ∧ xenlight_golang_define_from_C
          (.struct tn ((fn, .array none e lv jA) :: more) iS dS jS) none false
        = .error "type not supported"
      ∧ xenlight_golang_define_to_C
          (.struct tn ((fn, .array none e lv jA) :: more) iS dS jS) none false
        = .error "type not supported" := by
  refine ⟨?_, ?_, ?_⟩
  · unfold xenlight_golang_generate_types
    exact generateTypesGo_prefix rest _
      (typeDefine_unsupported_first_field tn fn lv jA iS dS jS e more) pre _ hok
  · rfl
  · rfl

/-- C4 amended witness: the amended theorem applied to the concrete input
`[demoEnum, badStruct]`. -/
theorem C4_amended_witness :
    (∀ t ∈ [demoEnum], ∃ r, xenlight_golang_type_define t = .ok r)
      ∧ xenlight_golang_generate_types none ([demoEnum] ++ badStruct :: [])
        = ((xenlight_golang_generate_types none [demoEnum]).1, some "type not supported") := by
  have hok : ∀ t ∈ [demoEnum], ∃ r, xenlight_golang_type_define t = .ok r := by
    intro t ht
    simp only [List.mem_singleton] at ht
    subst ht
    exact ⟨("type E int\nconst(\nA E = 0\nB E = 1\n)\n", []), rfl⟩
  exact ⟨hok, (C4_amended_fail_fast_with_incremental_writes none [demoEnum] []
    (some "libxl_bad") "f" "n" "JSON_ANY" "libxl_bad_init" "libxl_bad_dispose" "JSON_MAP"
    (.builtin "uint8" "JSON_INTEGER") [] hok).1⟩

-- The declaration emitter's variant loop skips a payload-less variant.
theorem defineUnionVariants_skip (sn kn iname nm : String)
    (ufs₁ ufs₂ : List (String × Option TypeDesc)) :
    defineUnionVariants sn kn iname (ufs₁ ++ (nm, none) :: ufs₂)
      = defineUnionVariants sn kn iname (ufs₁ ++ ufs₂) := by
  induction ufs₁ with
  | nil => simp only [List.nil_append, defineUnionVariants]
  | cons hd t ih =>
    obtain ⟨gn, gopt⟩ := hd
    cases gopt with
    | none =>
      simp only [List.cons_append, defineUnionVariants, List.append_eq]
      exact ih
    | some q =>
      simp only [List.cons_append, defineUnionVariants, List.append_eq]
      rw [ih]

-- The decode helper loop skips a payload-less variant.
theorem unionFromCHelpers_skip (g c sn un kt kn nm : String)
    (ufs₁ ufs₂ : List (String × Option TypeDesc)) :
    unionFromCHelpers g c sn un kt kn (ufs₁ ++ (nm, none) :: ufs₂)
      = unionFromCHelpers g c sn un kt kn (ufs₁ ++ ufs₂) := by
  induction ufs₁ with
  | nil => simp only [List.nil_append, unionFromCHelpers]
  | cons hd t ih =>
    obtain ⟨gn, gopt⟩ := hd
    cases gopt with
    | none =>
      simp only [List.cons_append, unionFromCHelpers, List.append_eq]
      exact ih
    | some q =>
      simp only [List.cons_append, unionFromCHelpers, List.append_eq]
      rw [ih]

-- The decode switch loop skips a payload-less variant.
theorem unionFromCCases_skip (sn kn kt nm : String)
    (ufs₁ ufs₂ : List (String × Option TypeDesc)) :
    unionFromCCases sn kn kt (ufs₁ ++ (nm, none) :: ufs₂)
      = unionFromCCases sn kn kt (ufs₁ ++ ufs₂) := by
  induction ufs₁ with
  | nil => simp only [List.nil_append, unionFromCCases]
  | cons hd t ih =>
    obtain ⟨gn, gopt⟩ := hd
    cases gopt with
    | none =>
      simp only [List.cons_append, unionFromCCases, List.append_eq]
      exact ih
    | some q =>
      simp only [List.cons_append, unionFromCCases, List.append_eq]
      rw [ih]

-- The encode switch loop skips a payload-less variant.
theorem unionToCCases_skip (kn kt sn un d nm : String)
    (ufs₁ ufs₂ : List (String × Option TypeDesc)) :
    unionToCCases kn kt sn un d (ufs₁ ++ (nm, none) :: ufs₂)
      = unionToCCases kn kt sn un d (ufs₁ ++ ufs₂) := by
  induction ufs₁ with
  | nil => simp only [List.nil_append, unionToCCases]
  | cons hd t ih =>
    obtain ⟨gn, gopt⟩ := hd
    cases gopt with
    | none =>
      simp only [List.cons_append, unionToCCases, List.append_eq]
      exact ih
    | some q =>
      simp only [List.cons_append, unionToCCases, List.append_eq]
      rw [ih]

/-- C6 amended: a payload-less variant contributes neither an emitted
variant type nor a dispatch case: removing it from the union leaves the
declaration emitter's output, the generated decode switch (with its
helpers), and the generated encode switch all unchanged, so its
discriminant value falls through to the "invalid union key" default arm
at the generated code's runtime. -/
theorem C6_amended_payloadless_contributes_nothing (tn : Option String)
    (kn kt jpt nm sn un d : String) (ufs₁ ufs₂ : List (String × Option TypeDesc)) :
    xenlight_golang_define_union (.keyedUnion tn kn kt (ufs₁ ++ (nm, none) :: ufs₂) jpt) sn
        = xenlight_golang_define_union (.keyedUnion tn kn kt (ufs₁ ++ ufs₂) jpt) sn
      ∧ xenlight_golang_union_from_C (.keyedUnion tn kn kt (ufs₁ ++ (nm, none) :: ufs₂) jpt) un sn
        = xenlight_golang_union_from_C (.keyedUnion tn kn kt (ufs₁ ++ ufs₂) jpt) un sn
      ∧ xenlight_golang_union_to_C (.keyedUnion tn kn kt (ufs₁ ++ (nm, none) :: ufs₂) jpt) un sn d
        = xenlight_golang_union_to_C (.keyedUnion tn kn kt (ufs₁ ++ ufs₂) jpt) un sn d := by
  refine ⟨?_, ?_, ?_⟩
  · simp only [xenlight_golang_define_union]
    rw [defineUnionVariants_skip]
  · simp only [xenlight_golang_union_from_C]
    rw [unionFromCHelpers_skip, unionFromCCases_skip]
  · simp only [xenlight_golang_union_to_C]
    rw [unionToCCases_skip]

-- Pairing each character with its predecessor and title-casing by that
-- pair agrees with the flag-threading recursion.
theorem titleAmended_aux (cs : List Char) : ∀ po : Option Char,
    ((cs.zip (po :: cs.map some)).map (fun p =>
       if p.1.isAlpha then
         (if (p.2.map Char.isAlpha).getD false then p.1.toLower else p.1.toUpper)
       else p.1))
      = titleAux ((po.map Char.isAlpha).getD false) cs := by
  induction cs with
  | nil => intro po; rfl
  | cons c t ih =>
    intro po
    simp only [List.map_cons, List.zip_cons_cons, titleAux]
    rw [ih (some c)]
    rfl

theorem title_amended_eq_titlePy : title_amended = titlePy := by
  funext cs
  unfold title_amended titlePy
  exact titleAmended_aux cs none

/-- C7 amended: the resolver returns the configured equivalent for a known
builtin; otherwise it splits on underscore, drops a first word that
case-insensitively equals the reserved prefix, then for exported names
title-cases every word (upper-casing a letter that starts a letter run
and lower-casing the rest) and concatenates, and for unexported names
keeps the first word unchanged and title-cases the remaining words; it is
total except for an unexported non-builtin name whose word list becomes
empty after the prefix drop (the bare prefix), where it raises. -/
theorem C7_amended_resolver_description (name : String) (exported : Bool) :
    xenlight_golang_fmt_name_opt name exported = amended_resolve name exported := by
  unfold xenlight_golang_fmt_name_opt amended_resolve
  rw [title_amended_eq_titlePy]

-- Splitting a string without separators returns the single whole word.
theorem splitU_no_underscore {cs : List Char} (h : '_' ∉ cs) : splitU cs = [cs] := by
  induction cs with
  | nil => rfl
  | cons c t ih =>
    simp only [List.mem_cons, not_or] at h
    obtain ⟨h1, h2⟩ := h
    simp only [splitU, if_neg (fun hh : c = '_' => h1 hh.symm)]
    rw [ih h2]

/-- C9 amended: the resolver is pure and deterministic but not idempotent
in general; unexported resolution is idempotent whenever the first
resolution's output contains no underscore (which resolver outputs never
do), is not a builtin native name, and is not the reserved prefix: such
an output re-resolves to itself. -/
theorem C9_amended_unexported_idempotence (n r : String)
    (hres : xenlight_golang_fmt_name_opt n false = some r)
    (hu : '_' ∉ r.data)
    (hb : builtin_type_names.lookup r = none)
    (hl : lowerL r.data ≠ "libxl".data) :
    xenlight_golang_fmt_name_opt r false = some r := by
  unfold xenlight_golang_fmt_name_opt
  rw [hb, splitU_no_underscore hu]
  simp [if_neg hl, mk_data_eq]

/-- C9 amended witness: the amended theorem applied to the concrete
resolution `"libxl_foo_bar"` (unexported) `= "fooBar"`. -/
theorem C9_amended_unexported_idempotence_witness :
    xenlight_golang_fmt_name_opt "libxl_foo_bar" false = some "fooBar"
      ∧ '_' ∉ "fooBar".data
      ∧ builtin_type_names.lookup "fooBar" = none
      ∧ lowerL "fooBar".data ≠ "libxl".data
      ∧ xenlight_golang_fmt_name_opt "fooBar" false = some "fooBar" :=
  ⟨by decide, by decide, by decide, by decide,
   C9_amended_unexported_idempotence "libxl_foo_bar" "fooBar"
     (by decide) (by decide) (by decide) (by decide)⟩
